import Mathlib

/-
Verification development for the Symphony storage engine
(PackedArray.h, DenseArray, SparseSet, IndirectionTable).

Shallow embedding conventions:
- size_t values are modelled as Nat. All arithmetic the source performs on
  them stays well below 2^64 in every trace considered here, except for the
  all-ones sentinel, which is modelled explicitly as INVALID = 2^64 - 1.
- std::vector is modelled as List (only the first m_size elements of the
  raw m_dense buffer are observable, so the list holds exactly those).
- std::map / std::unordered_map are modelled as association lists
  (List (Nat x _)); states built from the empty map have no duplicate keys.
- assertion failures, null-pointer dereferences and out-of-bounds reads
  (undefined behaviour) are modelled by Option: an operation that hits one
  returns none.
-/

namespace Symphony

/-- Association list lookup, modelling std::map::find / unordered_map::find. -/
def alookup {α : Type} (m : List (Nat × α)) (k : Nat) : Option α :=
  match m with
  | [] => none
  | (k2, v) :: rest => if k2 = k then some v else alookup rest k

/-- Association list update-or-insert, modelling map::operator[] assignment
and try_emplace followed by assignment. -/
def aset {α : Type} (m : List (Nat × α)) (k : Nat) (v : α) : List (Nat × α) :=
  match m with
  | [] => [(k, v)]
  | (k2, v2) :: rest => if k2 = k then (k, v) :: rest else (k2, v2) :: aset rest k v

/-- Association list erase, modelling std::map::erase. -/
def aerase {α : Type} (m : List (Nat × α)) (k : Nat) : List (Nat × α) :=
  match m with
  | [] => []
  | (k2, v2) :: rest => if k2 = k then rest else (k2, v2) :: aerase rest k

/-- The keys of an association list. -/
def akeys {α : Type} (m : List (Nat × α)) : List Nat := m.map Prod.fst

/-- The all-ones 64-bit pattern. The source writes
std::numeric_limits of the value type (the intended max; the spec reserves the
all-ones bit pattern as its null sentinel), and also produces it as
value_or(-1) on a size_t. -/
def INVALID : Nat := 2 ^ 64 - 1

/-- The std::lower_bound binary search, exactly as the algorithm runs on a
raw array: repeatedly halve the window [first, first + len). Out-of-window
reads use getD 0; they never happen when first + len is within the list.
The extra fuel argument only makes the recursion structural (every call
site passes fuel = len, and each iteration strictly shrinks len, so the
fuel never runs out before len reaches 0). -/
def lowerBoundAux (l : List Nat) (key : Nat) (fuel first len : Nat) : Nat :=
  match fuel with
  | 0 => first
  | fuel + 1 =>
    if len = 0 then first
    else
      let half := len / 2
      if l.getD (first + half) 0 < key then
        lowerBoundAux l key fuel (first + half + 1) (len - half - 1)
      else
        lowerBoundAux l key fuel first half

/-- A bucket of the SparseSet: parallel key/value arrays of which the first
m_size entries are live. Only the live prefixes are modelled, as two lists;
m_size is keys.length. -/
structure Bucket where
  keys : List Nat
  values : List Nat
deriving Repr, DecidableEq

/-- A fresh Bucket() : m_size = 0 (the backing capacity-sized allocation is
uninitialised and not observable). -/
def Bucket.mt : Bucket := ⟨[], []⟩

/-- Bucket::lower_bound over the live keys. -/
def Bucket.lowerBound (b : Bucket) (key : Nat) : Nat :=
  lowerBoundAux b.keys key b.keys.length 0 b.keys.length

/-- Bucket::Contains: std::binary_search, i.e. lb = lower_bound;
lb != end and not (key < keys[lb]). -/
def Bucket.Contains (b : Bucket) (key : Nat) : Bool :=
  decide (b.lowerBound key < b.keys.length) &&
    decide (b.keys.getD (b.lowerBound key) 0 ≤ key)

/-- Bucket::Value: lower_bound, then return the parallel value on an exact
key match, nullopt otherwise. -/
def Bucket.Value (b : Bucket) (key : Nat) : Option Nat :=
  if b.lowerBound key < b.keys.length ∧ b.keys.getD (b.lowerBound key) 0 = key then
    some (b.values.getD (b.lowerBound key) 0)
  else none

/-- Bucket::Insert: refuse when the bucket is at capacity (1 <<< shift),
otherwise shift the tail right by one (memmove) and write the pair at the
lower_bound position. The bool result of the source is not modelled; the
one call site that meets a full bucket ignores it, leaving the bucket as is,
which is what the guard branch returns. -/
def Bucket.Insert (shift : Nat) (b : Bucket) (key v : Nat) : Bucket :=
  if 1 <<< shift ≤ b.keys.length then b
  else
    let i := b.lowerBound key
    { keys := b.keys.take i ++ key :: b.keys.drop i,
      values := b.values.take i ++ v :: b.values.drop i }

/-- Bucket::Remove: lower_bound; return unchanged unless an exact match,
otherwise shift the tail left over the gap (memmove) and shrink. -/
def Bucket.Remove (b : Bucket) (key : Nat) : Bucket :=
  let i := b.lowerBound key
  if i < b.keys.length ∧ b.keys.getD i 0 = key then
    { keys := b.keys.take i ++ b.keys.drop (i + 1),
      values := b.values.take i ++ b.values.drop (i + 1) }
  else b

/-- Bucket::Distribute: move the latter half of this bucket to the BEGINNING
of the other bucket and set the other size to m_size - mid, discarding
whatever the other bucket held. The source guards on object identity
(other == *this); the call site passes two distinct map entries, so the
guard is never taken and is not modelled. Returns (this, other). -/
def Bucket.Distribute (b _other : Bucket) : Bucket × Bucket :=
  let mid := b.keys.length / 2
  (⟨b.keys.take mid, b.values.take mid⟩,
   ⟨b.keys.drop mid, b.values.drop mid⟩)

/-- Bucket::Merge: append all of the other bucket to this one. The identity
guard is never taken at the call site (distinct map entries). -/
def Bucket.Merge (b other : Bucket) : Bucket :=
  ⟨b.keys ++ other.keys, b.values ++ other.values⟩

/-- Bucket::Rebalance: even out the two buckets to sizes
(total / 2, total - total / 2), moving a prefix of the other in or a suffix
of this one out. Returns (this, other). -/
def Bucket.Rebalance (b other : Bucket) : Bucket × Bucket :=
  let total := b.keys.length + other.keys.length
  let target := total / 2
  if b.keys.length < target then
    let n := target - b.keys.length
    (⟨b.keys ++ other.keys.take n, b.values ++ other.values.take n⟩,
     ⟨other.keys.drop n, other.values.drop n⟩)
  else
    let n := b.keys.length - target
    let _ := n
    (⟨b.keys.take target, b.values.take target⟩,
     ⟨b.keys.drop target ++ other.keys, b.values.drop target ++ other.values⟩)

/-- The SparseSet: m_dense holds the first m_size inserted keys (m_size is
dense.length); m_sparse maps bucket indices to buckets. m_capacity,
m_growFactor and Resize only affect the unobservable backing allocation and
are not modelled. The set is parameterised by SPARSE_BUCKET_SHIFT (10 in the
source); bucket capacity is 1 <<< shift. -/
structure SparseSet where
  dense : List Nat
  sparse : List (Nat × Bucket)
deriving Repr, DecidableEq

/-- A freshly constructed SparseSet. -/
def SparseSet.mt : SparseSet := ⟨[], []⟩

/-- SparseSet::GetOrCreateBucket: try_emplace, constructing a fresh bucket
when the page had none. Returns the bucket and the updated map. -/
def getOrCreateBucket (sp : List (Nat × Bucket)) (b : Nat) : Bucket × List (Nat × Bucket) :=
  match alookup sp b with
  | some bkt => (bkt, sp)
  | none => (Bucket.mt, aset sp b Bucket.mt)

/-- SparseSet::GetBucketIndexAndOffset: entity >> shift and
entity & (bucketSize - 1). -/
def bucketIndexAndOffset (shift e : Nat) : Nat × Nat :=
  (e >>> shift, e &&& ((1 <<< shift) - 1))

/-- SparseSet::Insert. Returns the updated set and the returned size_t:
the stored value (value_or(-1), i.e. INVALID on the impossible miss) when
the key is already present, the old m_size otherwise. -/
def SparseSet.Insert (shift : Nat) (s : SparseSet) (e v : Nat) : SparseSet × Nat :=
  let b := (bucketIndexAndOffset shift e).1
  let o := (bucketIndexAndOffset shift e).2
  let p := getOrCreateBucket s.sparse b
  let bkt := p.1
  let sp := p.2
  if bkt.Contains o then
    ({ s with sparse := sp }, (bkt.Value o).getD INVALID)
  else
    let q :=
      if 1 <<< shift ≤ bkt.keys.length then
        let r := getOrCreateBucket sp (b + 1)
        let d := bkt.Distribute r.1
        (d.1, aset (aset r.2 b d.1) (b + 1) d.2)
      else (bkt, sp)
    let bkt2 := Bucket.Insert shift q.1 o v
    ({ dense := s.dense ++ [e], sparse := aset q.2 b bkt2 }, s.dense.length)

/-- SparseSet::Get. The source returns the InvalidValue sentinel when the
page has no bucket and an empty optional dressed as a value when the bucket
misses the offset; both denote absence and are modelled as none. Callers
that read the result as a plain size_t apply getD INVALID. -/
def SparseSet.Get (shift : Nat) (s : SparseSet) (e : Nat) : Option Nat :=
  let b := (bucketIndexAndOffset shift e).1
  let o := (bucketIndexAndOffset shift e).2
  match alookup s.sparse b with
  | some bkt => bkt.Value o
  | none => none

/-- SparseSet::Contains. -/
def SparseSet.Contains (shift : Nat) (s : SparseSet) (e : Nat) : Bool :=
  let b := (bucketIndexAndOffset shift e).1
  let o := (bucketIndexAndOffset shift e).2
  match alookup s.sparse b with
  | some bkt => bkt.Contains o
  | none => false

/-- The merge-or-rebalance check at the end of SparseSet::Remove, acting on
the map sp3 in which the bucket of the removed key (index b, current
content bkt3) has already had the offset removed: when that bucket fell
under half capacity and a bucket exists for the next page, merge it in when
the combined size fits (destroying the next bucket), otherwise rebalance
the two. -/
def removeMergeStep (shift b : Nat) (bkt3 : Bucket) (sp3 : List (Nat × Bucket)) :
    List (Nat × Bucket) :=
  if bkt3.keys.length < (1 <<< shift) >>> 1 then
    match alookup sp3 (b + 1) with
    | some nbkt =>
      if bkt3.keys.length + nbkt.keys.length ≤ 1 <<< shift then
        aerase (aset sp3 b (bkt3.Merge nbkt)) (b + 1)
      else
        aset (aset sp3 b (bkt3.Rebalance nbkt).1) (b + 1) (bkt3.Rebalance nbkt).2
    | none => sp3
  else sp3

/-- The tail of SparseSet::Remove after the optional swap fix-up: remove
the offset from the bucket of the removed key (re-read from the map, which
reproduces the source aliasing when bucket and lastBucket are the same
object), run the merge-or-rebalance check, and decrement m_size. -/
def SparseSet.removeTail (shift b o : Nat) (dense1 : List Nat)
    (sp1 : List (Nat × Bucket)) : SparseSet :=
  let bkt3 := ((alookup sp1 b).getD Bucket.mt).Remove o
  { dense := dense1.dropLast,
    sparse := removeMergeStep shift b bkt3 (aset sp1 b bkt3) }

/-- SparseSet::Remove. none models undefined behaviour: the m_size - 1
underflow when the set is empty yet a value was found, and the null
dereference after m_sparse[lastBucketIndex] inserts a nullptr for a missing
page. -/
def SparseSet.Remove (shift : Nat) (s : SparseSet) (e : Nat) : Option SparseSet :=
  let b := (bucketIndexAndOffset shift e).1
  let o := (bucketIndexAndOffset shift e).2
  let p := getOrCreateBucket s.sparse b
  match p.1.Value o with
  | none => some { s with sparse := p.2 }
  | some removedIndex =>
    if s.dense.length = 0 then none
    else if removedIndex ≠ s.dense.length - 1 then
      let last := s.dense.getD (s.dense.length - 1) 0
      let lb := (bucketIndexAndOffset shift last).1
      let lo := (bucketIndexAndOffset shift last).2
      match alookup p.2 lb with
      | none => none
      | some lbkt =>
        some (SparseSet.removeTail shift b o (s.dense.set removedIndex last)
          (aset p.2 lb (Bucket.Insert shift (lbkt.Remove lo) lo removedIndex)))
    else
      some (SparseSet.removeTail shift b o s.dense p.2)

/-- SparseSet::Size. -/
def SparseSet.Size (s : SparseSet) : Nat := s.dense.length

/-- The IndirectionTable (slot allocator): m_indirection maps each slot to
an optional dense index (Undirected = none), m_freeList recycles slots,
m_denseSize counts onwards. The free list is a std::vector used as a stack
at its back; it is modelled with the list head as the vector back. -/
structure IndirectionTable where
  indirection : List (Option Nat)
  freeList : List Nat
  denseSize : Nat
deriving Repr, DecidableEq

/-- IndirectionTable(): empty table, denseSize 0. -/
def IndirectionTable.mt : IndirectionTable := ⟨[], [], 0⟩

/-- IndirectionTable::Next: pop a recycled slot from the free list and point
it at the current dense size, or append a fresh slot; either way increment
m_denseSize and return the slot. -/
def IndirectionTable.Next (t : IndirectionTable) : IndirectionTable × Nat :=
  match t.freeList with
  | i :: rest =>
    ({ indirection := t.indirection.set i (some t.denseSize),
       freeList := rest, denseSize := t.denseSize + 1 }, i)
  | [] =>
    ({ indirection := t.indirection ++ [some t.denseSize],
       freeList := [], denseSize := t.denseSize + 1 }, t.denseSize)

/-- IndirectionTable::Erase: assert the slot is in range (none on failure),
push it on the free list and mark it Undirected. m_denseSize is not touched
by the source. -/
def IndirectionTable.Erase (t : IndirectionTable) (i : Nat) : Option IndirectionTable :=
  if i < t.indirection.length then
    some { indirection := t.indirection.set i none,
           freeList := i :: t.freeList, denseSize := t.denseSize }
  else none

/-- IndirectionTable::Put: assert in range, overwrite the entry. -/
def IndirectionTable.Put (t : IndirectionTable) (i d : Nat) : Option IndirectionTable :=
  if i < t.indirection.length then
    some { t with indirection := t.indirection.set i (some d) }
  else none

/-- IndirectionTable::Clear. -/
def IndirectionTable.Clear (_t : IndirectionTable) : IndirectionTable := ⟨[], [], 0⟩

/-- IndirectionTable::At: assert in range, read the entry. -/
def IndirectionTable.At (t : IndirectionTable) (i : Nat) : Option (Option Nat) :=
  if i < t.indirection.length then some (t.indirection.getD i none) else none

/-- The number of slots whose indirection entry is not Undirected. -/
def IndirectionTable.liveCount (t : IndirectionTable) : Nat :=
  t.indirection.countP (fun x => x.isSome)

/-- The DenseArray: contiguous components, a key-to-index map and the
parallel index-to-key vector. -/
structure DenseArray (Comp : Type) where
  components : List Comp
  keyToIndex : List (Nat × Nat)
  indexToKey : List Nat
deriving Repr, DecidableEq

/-- A fresh DenseArray. -/
def DenseArray.mt (Comp : Type) : DenseArray Comp := ⟨[], [], []⟩

/-- DenseArray::Size. -/
def DenseArray.Size {Comp : Type} (d : DenseArray Comp) : Nat := d.components.length

/-- DenseArray::Add: assert the key is new (none on violation), push the
component, record key to newIndex and newIndex to key. -/
def DenseArray.Add {Comp : Type} (d : DenseArray Comp) (key : Nat) (c : Comp) :
    Option (DenseArray Comp) :=
  if (alookup d.keyToIndex key).isSome then none
  else some { components := d.components ++ [c],
              keyToIndex := aset d.keyToIndex key d.components.length,
              indexToKey := d.indexToKey ++ [key] }

/-- DenseArray::Remove: assert the key exists; when its index is not the
last, swap the back into its place and rewire the bookkeeping of the moved
key; pop the tail and erase the key. -/
def DenseArray.Remove {Comp : Type} (d : DenseArray Comp) (key : Nat) :
    Option (DenseArray Comp) :=
  match alookup d.keyToIndex key with
  | none => none
  | some indexToRemove =>
    let n := d.components.length
    if indexToRemove ≠ n - 1 then
      match d.components.get? (n - 1), d.indexToKey.get? (n - 1) with
      | some lastComp, some lastKey =>
        some { components := (d.components.set indexToRemove lastComp).dropLast,
               keyToIndex := aerase (aset d.keyToIndex lastKey indexToRemove) key,
               indexToKey := (d.indexToKey.set indexToRemove lastKey).dropLast }
      | _, _ => none
    else
      some { components := d.components.dropLast,
             keyToIndex := aerase d.keyToIndex key,
             indexToKey := d.indexToKey.dropLast }

/-- DenseArray::Get: assert the key exists, return its component. -/
def DenseArray.Get {Comp : Type} (d : DenseArray Comp) (key : Nat) : Option Comp :=
  match alookup d.keyToIndex key with
  | some i => d.components.get? i
  | none => none

/-- DenseArray::GetByIndex: assert the index is in range (none otherwise),
return the component at that dense position. -/
def DenseArray.GetByIndex {Comp : Type} (d : DenseArray Comp) (i : Nat) : Option Comp :=
  d.components.get? i

/-- DenseArray::GetKeyAtIndex: assert in range, return the key stored at
the dense position. -/
def DenseArray.GetKeyAtIndex {Comp : Type} (d : DenseArray Comp) (i : Nat) : Option Nat :=
  d.indexToKey.get? i

/-- Outcome of PackedArray::Get. dummy is the shared static
default-constructed component the source returns when the looked-up index
is 0; outOfRange is the GetByIndex bounds assertion firing; keyNotFound is
the condition the specification demands for an absent key, which the source
never produces. -/
inductive CompResult (Comp : Type) where
  | dummy : CompResult Comp
  | record : Comp → CompResult Comp
  | outOfRange : CompResult Comp
  | keyNotFound : CompResult Comp
deriving Repr, DecidableEq

/-- The PackedArray: a SparseSet from entity to dense-array key (the source
instantiates it at the default SPARSE_BUCKET_SHIFT = 10) and a DenseArray
from that key to the component. -/
structure PackedArray (Comp : Type) where
  sparseSet : SparseSet
  denseArray : DenseArray Comp
deriving Repr, DecidableEq

/-- A fresh PackedArray. -/
def PackedArray.mt (Comp : Type) : PackedArray Comp := ⟨SparseSet.mt, DenseArray.mt Comp⟩

/-- PackedArray::Add: skip present entities, otherwise insert
entity to Size into the sparse set and Size to component into the dense
array. -/
def PackedArray.Add {Comp : Type} (p : PackedArray Comp) (e : Nat) (c : Comp) :
    Option (PackedArray Comp) :=
  if SparseSet.Contains 10 p.sparseSet e then some p
  else
    let index := p.denseArray.Size
    let ss := (SparseSet.Insert 10 p.sparseSet e index).1
    (p.denseArray.Add index c).map fun da => ⟨ss, da⟩

/-- PackedArray::Remove: read the index through operator[] (the sentinel
INVALID when absent), return immediately when the index is 0 (the source
tests it for truthiness), remove it from the dense array, and when it was
not last, remap the entity read from the NEW last dense position. -/
def PackedArray.Remove {Comp : Type} (p : PackedArray Comp) (e : Nat) :
    Option (PackedArray Comp) :=
  let index := (SparseSet.Get 10 p.sparseSet e).getD INVALID
  if index = 0 then some p
  else
    (p.denseArray.Remove index).bind fun da =>
      if index < da.Size then
        match da.GetKeyAtIndex (da.Size - 1) with
        | none => none
        | some lastEntity =>
          (SparseSet.Remove 10 p.sparseSet lastEntity).bind fun ss1 =>
            let ss2 := (SparseSet.Insert 10 ss1 lastEntity index).1
            (SparseSet.Remove 10 ss2 e).map fun ss3 => PackedArray.mk ss3 da
      else
        (SparseSet.Remove 10 p.sparseSet e).map fun ss3 => PackedArray.mk ss3 da

/-- PackedArray::Get: read the index through operator[]; on index 0 return
the shared static default-constructed dummy; otherwise GetByIndex, whose
bounds assertion yields outOfRange. -/
def PackedArray.Get {Comp : Type} (p : PackedArray Comp) (e : Nat) : CompResult Comp :=
  let index := (SparseSet.Get 10 p.sparseSet e).getD INVALID
  if index = 0 then CompResult.dummy
  else
    match p.denseArray.GetByIndex index with
    | some c => CompResult.record c
    | none => CompResult.outOfRange

/-- PackedArray::Size. -/
def PackedArray.Size {Comp : Type} (p : PackedArray Comp) : Nat := p.denseArray.Size

/-- Concrete run for C1: Add entities 10, 20, 30 with components 100, 101,
102, then Remove entity 20 (dense position 1, not the last position 2). -/
def C1trace : Option (PackedArray Nat) :=
  ((((PackedArray.Add (PackedArray.mt Nat) 10 100).bind
      (fun s => PackedArray.Add s 20 101)).bind
      (fun s => PackedArray.Add s 30 102)).bind
      (fun s => PackedArray.Remove s 20))

/-- Concrete run for C5 at SPARSE_BUCKET_SHIFT = 2 (bucket capacity 4):
insert keys 0 .. n-1 in order, each mapped to its insertion index. -/
def C5insert (n : Nat) : SparseSet :=
  (List.range n).foldl (fun s k => (SparseSet.Insert 2 s k k).1) SparseSet.mt

/-- Concrete run for C6: insert keys 0, 1024, 1025 then remove 1025. After
the removal, bucket 0 (occupancy 1) is not the highest-indexed occupied
bucket (bucket 1 remains occupied). -/
def C6trace : Option SparseSet :=
  let s1 := (SparseSet.Insert 10 SparseSet.mt 0 0).1
  let s2 := (SparseSet.Insert 10 s1 1024 1).1
  let s3 := (SparseSet.Insert 10 s2 1025 2).1
  SparseSet.Remove 10 s3 1025

/-- Concrete run for C9: insert keys 1022, 1023, 1024, 1025 then remove
1022, which drives bucket 0 under half capacity and merges bucket 1 into
it. -/
def C9trace : Option SparseSet :=
  let s1 := (SparseSet.Insert 10 SparseSet.mt 1022 0).1
  let s2 := (SparseSet.Insert 10 s1 1023 1).1
  let s3 := (SparseSet.Insert 10 s2 1024 2).1
  let s4 := (SparseSet.Insert 10 s3 1025 3).1
  SparseSet.Remove 10 s4 1022

/-- Concrete state for the C10 witness: the result of Add(7, 42) on a fresh
PackedArray, in which entity 7 occupies dense position 0. -/
def C10state : PackedArray Nat :=
  (PackedArray.Add (PackedArray.mt Nat) 7 42).getD (PackedArray.mt Nat)

/-- Concrete state for the C8 witness: entity 5 present with value 9. -/
def C8state : SparseSet := ⟨[5], [(0, ⟨[5], [9]⟩)]⟩

/-- Concrete state for the C6 witness: entity 0 present with value 0. -/
def C6wstate : SparseSet := ⟨[0], [(0, ⟨[0], [0]⟩)]⟩

/-- Boolean check that a list of offsets is sorted in non-decreasing
order (the invariant every bucket lookup relies on). -/
def sortedLe : List Nat → Bool
  | [] => true
  | [_] => true
  | a :: b :: t => decide (a ≤ b) && sortedLe (b :: t)

theorem alookup_aset {α : Type} (m : List (Nat × α)) (k k2 : Nat) (v : α) :
    alookup (aset m k v) k2 = if k = k2 then some v else alookup m k2 := by
  induction m with
  | nil => simp only [aset, alookup]
  | cons hd t ih =>
    obtain ⟨ka, va⟩ := hd
    simp only [aset]
    by_cases h1 : ka = k
    · subst h1
      simp only [if_pos rfl, alookup]
      by_cases h2 : ka = k2 <;> simp [h2]
    · simp only [if_neg h1, alookup, ih]
      by_cases h2 : ka = k2
      · subst h2
        have : ¬ k = ka := fun hh => h1 hh.symm
        simp [this]
      · simp [h2]

theorem alookup_aerase_ne {α : Type} (m : List (Nat × α)) (k k2 : Nat) (h : k2 ≠ k) :
    alookup (aerase m k) k2 = alookup m k2 := by
  induction m with
  | nil => simp [aerase]
  | cons hd t ih =>
    obtain ⟨ka, va⟩ := hd
    simp only [aerase]
    by_cases h1 : ka = k
    · subst h1
      simp only [if_pos rfl, alookup]
      have hne : ¬ ka = k2 := fun hh => h hh.symm
      simp [hne]
    · simp only [if_neg h1, alookup, ih]

theorem alookup_eq_none_of_not_mem {α : Type} (m : List (Nat × α)) (k : Nat)
    (h : k ∉ akeys m) : alookup m k = none := by
  induction m with
  | nil => rfl
  | cons hd t ih =>
    obtain ⟨ka, va⟩ := hd
    simp only [akeys, List.map_cons, List.mem_cons, not_or] at h
    simp only [alookup, if_neg (fun hh : ka = k => h.1 hh.symm)]
    exact ih h.2

theorem alookup_aerase_self {α : Type} (m : List (Nat × α)) (k : Nat)
    (hnd : (akeys m).Nodup) : alookup (aerase m k) k = none := by
  induction m with
  | nil => rfl
  | cons hd t ih =>
    obtain ⟨ka, va⟩ := hd
    simp only [akeys, List.map_cons, List.nodup_cons] at hnd
    simp only [aerase]
    by_cases h1 : ka = k
    · subst h1
      simp only [if_pos rfl]
      exact alookup_eq_none_of_not_mem t ka hnd.1
    · simp only [if_neg h1, alookup, ih hnd.2, if_neg h1]

theorem akeys_aset {α : Type} (m : List (Nat × α)) (k : Nat) (v : α) :
    akeys (aset m k v) = if k ∈ akeys m then akeys m else akeys m ++ [k] := by
  induction m with
  | nil => simp [aset, akeys]
  | cons hd t ih =>
    obtain ⟨ka, va⟩ := hd
    by_cases h1 : ka = k
    · subst h1
      simp [aset, akeys]
    · have hka : ¬ k = ka := fun hh => h1 hh.symm
      simp only [aset, if_neg h1, akeys, List.map_cons] at ih ⊢
      rw [ih]
      by_cases h2 : k ∈ List.map Prod.fst t
      · simp [List.mem_cons, hka, h2]
      · simp [List.mem_cons, hka, h2]

theorem nodup_akeys_aset {α : Type} (m : List (Nat × α)) (k : Nat) (v : α)
    (h : (akeys m).Nodup) : (akeys (aset m k v)).Nodup := by
  rw [akeys_aset]
  by_cases h2 : k ∈ akeys m
  · simpa [h2] using h
  · simp only [if_neg h2]
    simp only [List.nodup_append, List.nodup_cons, List.nodup_nil]
    refine ⟨h, by simp, ?_⟩
    intro a ha hak
    simp only [List.mem_singleton] at hak
    exact h2 (hak ▸ ha)

theorem Bucket.Value_some_contains (b : Bucket) (k v : Nat)
    (h : b.Value k = some v) : b.Contains k = true := by
  unfold Bucket.Value at h
  split at h
  · next hc =>
      simp only [Bucket.Contains, Bool.and_eq_true, decide_eq_true_eq]
      exact ⟨hc.1, le_of_eq hc.2⟩
  · exact absurd h (by simp)

theorem Bucket.contains_false_value_none (b : Bucket) (k : Nat)
    (h : b.Contains k = false) : b.Value k = none := by
  cases hv : b.Value k with
  | none => rfl
  | some v => exact absurd (Bucket.Value_some_contains b k v hv) (by simp [h])

theorem Bucket.Value_mt (k : Nat) : Bucket.mt.Value k = none := by
  simp [Bucket.Value, Bucket.mt, Bucket.lowerBound, lowerBoundAux]

theorem Bucket.Contains_mt (k : Nat) : Bucket.mt.Contains k = false := by
  simp [Bucket.Contains, Bucket.mt, Bucket.lowerBound, lowerBoundAux]

theorem Bucket.rebalance_fst_length (b o : Bucket) :
    ((Bucket.Rebalance b o).1).keys.length = (b.keys.length + o.keys.length) / 2 := by
  unfold Bucket.Rebalance
  by_cases h : b.keys.length < (b.keys.length + o.keys.length) / 2
  · simp only [if_pos h, List.length_append, List.length_take]
    have : (b.keys.length + o.keys.length) / 2 ≤ b.keys.length + o.keys.length :=
      Nat.div_le_self _ _
    omega
  · simp only [if_neg h, List.length_take]
    omega

theorem removeMergeStep_bound (shift b : Nat) (bkt3 : Bucket) (sp3 : List (Nat × Bucket))
    (hb3 : alookup sp3 b = some bkt3) (hnd : (akeys sp3).Nodup) :
    ∃ bkt, alookup (removeMergeStep shift b bkt3 sp3) b = some bkt ∧
      ((1 <<< shift) >>> 1 ≤ bkt.keys.length ∨
        alookup (removeMergeStep shift b bkt3 sp3) (b + 1) = none) := by
  have hne : b ≠ b + 1 := Nat.ne_of_lt (Nat.lt_succ_self b)
  unfold removeMergeStep
  by_cases hcond : bkt3.keys.length < (1 <<< shift) >>> 1
  · simp only [if_pos hcond]
    cases hnb : alookup sp3 (b + 1) with
    | none => exact ⟨bkt3, hb3, Or.inr hnb⟩
    | some nbkt =>
      by_cases hm : bkt3.keys.length + nbkt.keys.length ≤ 1 <<< shift
      · simp only [if_pos hm]
        refine ⟨bkt3.Merge nbkt, ?_, Or.inr ?_⟩
        · rw [alookup_aerase_ne _ _ _ hne, alookup_aset]
          simp
        · exact alookup_aerase_self _ _ (nodup_akeys_aset _ _ _ hnd)
      · simp only [if_neg hm]
        refine ⟨(bkt3.Rebalance nbkt).1, ?_, Or.inl ?_⟩
        · rw [alookup_aset, if_neg (fun hh => hne hh.symm), alookup_aset]
          simp
        · rw [Bucket.rebalance_fst_length]
          have h1 : 1 <<< shift + 1 ≤ bkt3.keys.length + nbkt.keys.length := by omega
          have h2 : (1 <<< shift + 1) / 2 ≤ (bkt3.keys.length + nbkt.keys.length) / 2 :=
            Nat.div_le_div_right h1
          have h3 : (1 <<< shift) / 2 ≤ (1 <<< shift + 1) / 2 :=
            Nat.div_le_div_right (Nat.le_succ _)
          rw [Nat.shiftRight_eq_div_pow, pow_one]
          omega
  · exact ⟨bkt3, by simp only [if_neg hcond, hb3], Or.inl (le_of_not_lt hcond)⟩

/-- C10 (confirmed). Whenever the sparse set maps a present key to dense
position 0, PackedArray::Get returns the shared static default-constructed
dummy instead of the stored record, and PackedArray::Remove returns
immediately leaving the storage unchanged, because both test the looked-up
position for truthiness. -/
theorem C10_zero_position_conflation {Comp : Type} (s : PackedArray Comp) (e : Nat)
    (h : SparseSet.Get 10 s.sparseSet e = some 0) :
    PackedArray.Get s e = CompResult.dummy ∧ PackedArray.Remove s e = some s := by
  constructor
  · simp [PackedArray.Get, h]
  · simp [PackedArray.Remove, h]

/-- C10 witness: in the storage obtained by Add(7, 42) on a fresh
PackedArray, entity 7 sits at dense position 0, Get(7) yields the dummy and
Remove(7) changes nothing. -/
theorem C10_zero_position_conflation_witness :
    SparseSet.Get 10 C10state.sparseSet 7 = some 0 ∧
      (PackedArray.Get C10state 7 = CompResult.dummy ∧
        PackedArray.Remove C10state 7 = some C10state) :=
  ⟨by decide, C10_zero_position_conflation C10state 7 (by decide)⟩

/-- C8 (confirmed). Inserting a key that is already present with value v1
returns the stored value v1 and leaves the whole sparse set (buckets, dense
array and size) unchanged, whatever value the second insert carries. -/
theorem C8_idempotent_insert (shift : Nat) (s : SparseSet) (e v1 v2 : Nat) (bkt : Bucket)
    (hb : alookup s.sparse (bucketIndexAndOffset shift e).1 = some bkt)
    (hv : bkt.Value (bucketIndexAndOffset shift e).2 = some v1) :
    SparseSet.Insert shift s e v2 = (s, v1) := by
  have hc : bkt.Contains (bucketIndexAndOffset shift e).2 = true :=
    Bucket.Value_some_contains _ _ _ hv
  simp only [SparseSet.Insert, getOrCreateBucket, hb, hc, hv, if_true, Option.getD_some]

/-- C8 witness: in a set where entity 5 carries value 9, Insert(5, 77)
returns 9 and leaves the set unchanged. -/
theorem C8_idempotent_insert_witness :
    alookup C8state.sparse (bucketIndexAndOffset 10 5).1 = some ⟨[5], [9]⟩ ∧
      Bucket.Value ⟨[5], [9]⟩ (bucketIndexAndOffset 10 5).2 = some 9 ∧
      SparseSet.Insert 10 C8state 5 77 = (C8state, 9) :=
  ⟨by decide, by decide,
    C8_idempotent_insert 10 C8state 5 9 77 ⟨[5], [9]⟩ (by decide) (by decide)⟩

/-- C3 (amended). PackedArray::Get on an absent key does not return the
shared placeholder and does not substitute a default record: the looked-up
index is the all-ones sentinel, which is nonzero, and the GetByIndex bounds
assertion fails, i.e. the call surfaces an OutOfRange condition (not the
KeyNotFound condition the claim names). The length bound merely states that
the modelled dense array fits in a size_t address space. -/
theorem C3_get_absent_amended {Comp : Type} (s : PackedArray Comp) (e : Nat)
    (h : SparseSet.Get 10 s.sparseSet e = none)
    (hl : s.denseArray.components.length < 2 ^ 64) :
    PackedArray.Get s e = CompResult.outOfRange := by
  have hinv : ¬ INVALID = 0 := by decide
  have hnone : s.denseArray.GetByIndex INVALID = none := by
    simp only [DenseArray.GetByIndex]
    rw [List.get?_eq_none]
    unfold INVALID
    omega
  simp only [PackedArray.Get, h, Option.getD_none, if_neg hinv, hnone]

/-- C3 witness: on a fresh PackedArray, key 3 is absent and Get(3) fails
with the OutOfRange condition. -/
theorem C3_get_absent_amended_witness :
    SparseSet.Get 10 (PackedArray.mt Nat).sparseSet 3 = none ∧
      (PackedArray.mt Nat).denseArray.components.length < 2 ^ 64 ∧
      PackedArray.Get (PackedArray.mt Nat) 3 = CompResult.outOfRange :=
  ⟨by decide, by decide,
    C3_get_absent_amended (PackedArray.mt Nat) 3 (by decide) (by decide)⟩

/-- C3 (counterexample). On a fresh PackedArray, key 5 is absent, yet Get
fails with an OutOfRange condition (the bounds assertion on the all-ones
sentinel index), not with the KeyNotFound condition the claim requires. -/
theorem C3_get_absent_cx :
    PackedArray.Get (PackedArray.mt Nat) 5 = CompResult.outOfRange ∧
      (CompResult.outOfRange : CompResult Nat) ≠ CompResult.keyNotFound := by
  decide

/-- C7 (amended). Removing an absent key from the sparse set completes
without error and leaves the dense array, the size, every lookup and the
present-key set unchanged, but it is not atomic on the set of existing
buckets: when no bucket existed for the key page, GetOrCreateBucket
materialises an empty one. -/
theorem C7_remove_absent_amended (shift : Nat) (s : SparseSet) (e j i : Nat)
    (hc : SparseSet.Contains shift s e = false) :
    ∃ s2, SparseSet.Remove shift s e = some s2 ∧
      s2.dense = s.dense ∧
      SparseSet.Get shift s2 j = SparseSet.Get shift s j ∧
      SparseSet.Contains shift s2 j = SparseSet.Contains shift s j ∧
      (alookup s2.sparse i).isSome
        = ((alookup s.sparse i).isSome || decide (i = (bucketIndexAndOffset shift e).1)) := by
  cases halk : alookup s.sparse (bucketIndexAndOffset shift e).1 with
  | some bkt =>
    have hcb : bkt.Contains (bucketIndexAndOffset shift e).2 = false := by
      simpa [SparseSet.Contains, halk] using hc
    have hv := Bucket.contains_false_value_none _ _ hcb
    refine ⟨s, ?_, rfl, rfl, rfl, ?_⟩
    · simp only [SparseSet.Remove, getOrCreateBucket, halk, hv]
    · by_cases hib : i = (bucketIndexAndOffset shift e).1
      · subst hib
        rw [halk]
        simp
      · simp [hib]
  | none =>
    refine ⟨⟨s.dense, aset s.sparse (bucketIndexAndOffset shift e).1 Bucket.mt⟩,
      ?_, rfl, ?_, ?_, ?_⟩
    · simp only [SparseSet.Remove, getOrCreateBucket, halk, Bucket.Value_mt]
    · simp only [SparseSet.Get, alookup_aset]
      by_cases hjb : (bucketIndexAndOffset shift e).1 = (bucketIndexAndOffset shift j).1
      · rw [if_pos hjb, ← hjb, halk]
        simp [Bucket.Value_mt]
      · rw [if_neg hjb]
    · simp only [SparseSet.Contains, alookup_aset]
      by_cases hjb : (bucketIndexAndOffset shift e).1 = (bucketIndexAndOffset shift j).1
      · rw [if_pos hjb, ← hjb, halk]
        simp [Bucket.Contains_mt]
      · rw [if_neg hjb]
    · simp only [alookup_aset]
      by_cases hib : (bucketIndexAndOffset shift e).1 = i
      · rw [if_pos hib, ← hib, halk]
        simp [hib]
      · rw [if_neg hib]
        have hib2 : ¬ i = (bucketIndexAndOffset shift e).1 := fun hh => hib hh.symm
        simp [hib2]

/-- C7 witness: removing the absent key 5 from the empty sparse set
succeeds, keeps the dense array, lookups (sampled at key 7) and the
present-key set unchanged, and creates exactly the bucket of page 0. -/
theorem C7_remove_absent_amended_witness :
    SparseSet.Contains 10 SparseSet.mt 5 = false ∧
      (∃ s2, SparseSet.Remove 10 SparseSet.mt 5 = some s2 ∧
        s2.dense = SparseSet.mt.dense ∧
        SparseSet.Get 10 s2 7 = SparseSet.Get 10 SparseSet.mt 7 ∧
        SparseSet.Contains 10 s2 7 = SparseSet.Contains 10 SparseSet.mt 7 ∧
        (alookup s2.sparse 0).isSome
          = ((alookup SparseSet.mt.sparse 0).isSome ||
              decide ((0 : Nat) = (bucketIndexAndOffset 10 5).1))) :=
  ⟨by decide, C7_remove_absent_amended 10 SparseSet.mt 5 7 0 (by decide)⟩

/-- C6 (amended). After Remove of a present key, the bucket owning that key
ends either at or above half capacity (the rebalance case restores this, as
does having remained at or above half), or no bucket exists for the
immediately following page (either it never existed, or the merge destroyed
it). Buckets of unrelated pages can stay arbitrarily under-occupied, so the
claimed global lower bound does not hold (see the counterexample). -/
theorem C6_occupancy_amended (shift : Nat) (s s2 : SparseSet) (e idx : Nat) (bkt0 : Bucket)
    (hnd : (akeys s.sparse).Nodup)
    (hb : alookup s.sparse (bucketIndexAndOffset shift e).1 = some bkt0)
    (hv : bkt0.Value (bucketIndexAndOffset shift e).2 = some idx)
    (hr : SparseSet.Remove shift s e = some s2) :
    ∃ bkt, alookup s2.sparse (bucketIndexAndOffset shift e).1 = some bkt ∧
      ((1 <<< shift) >>> 1 ≤ bkt.keys.length ∨
        alookup s2.sparse ((bucketIndexAndOffset shift e).1 + 1) = none) := by
  simp only [SparseSet.Remove, getOrCreateBucket, hb, hv] at hr
  split at hr
  · exact absurd hr (by simp)
  · split at hr
    · split at hr
      · exact absurd hr (by simp)
      · next lbkt hlb =>
        rw [Option.some.injEq] at hr
        subst hr
        simp only [SparseSet.removeTail]
        exact removeMergeStep_bound shift _ _ _
          (by rw [alookup_aset]; simp)
          (nodup_akeys_aset _ _ _ (nodup_akeys_aset _ _ _ hnd))
    · rw [Option.some.injEq] at hr
      subst hr
      simp only [SparseSet.removeTail]
      exact removeMergeStep_bound shift _ _ _
        (by rw [alookup_aset]; simp)
        (nodup_akeys_aset _ _ _ hnd)

/-- C6 witness: removing the only key (0) of a one-key set leaves bucket 0
empty, below half capacity, but no bucket exists for page 1. -/
theorem C6_occupancy_amended_witness :
    (akeys C6wstate.sparse).Nodup ∧
      alookup C6wstate.sparse (bucketIndexAndOffset 10 0).1 = some ⟨[0], [0]⟩ ∧
      Bucket.Value ⟨[0], [0]⟩ (bucketIndexAndOffset 10 0).2 = some 0 ∧
      SparseSet.Remove 10 C6wstate 0 = some ⟨[], [(0, Bucket.mt)]⟩ ∧
      (∃ bkt, alookup (SparseSet.mk [] [(0, Bucket.mt)]).sparse
          (bucketIndexAndOffset 10 0).1 = some bkt ∧
        ((1 <<< 10) >>> 1 ≤ bkt.keys.length ∨
          alookup (SparseSet.mk [] [(0, Bucket.mt)]).sparse
            ((bucketIndexAndOffset 10 0).1 + 1) = none)) :=
  ⟨by decide, by decide, by decide, by decide,
    C6_occupancy_amended 10 C6wstate ⟨[], [(0, Bucket.mt)]⟩ 0 0 ⟨[0], [0]⟩
      (by decide) (by decide) (by decide) (by decide)⟩

/-- C1 (code_bug evidence). Add entities 10, 20, 30 with components 100,
101, 102 and remove entity 20, which sits at dense position 1 (not last).
The dense array does relocate component 102 to position 1, but
PackedArray::Remove rewires the sparse entry of the dense-array index key
read from the new last position (the number 2) instead of the relocated
entity 30: afterwards the sparse set maps 30 to the out-of-range position 2
and maps the spurious entity 2 to position 1, and Get(30) fails the
GetByIndex bounds assertion instead of returning component 102. The claim
says the sparse index of the swapped key (entity 30) is rewritten to point
at position 1 and that Get(30) then returns 102. -/
theorem C1_packed_remove_code_bug :
    (C1trace.map fun s => (SparseSet.Get 10 s.sparseSet 30, PackedArray.Get s 30,
        SparseSet.Get 10 s.sparseSet 2, s.denseArray.components))
      = some (some 2, CompResult.outOfRange, some 1, [100, 102]) := by
  decide

/-- C2 (code_bug evidence). On a fresh PackedArray, Add(7, 42) stores the
component at dense position 0; the immediately following Get(7) reads index
0, treats it as falsy and returns the shared static default-constructed
dummy instead of a record equal to 42, so the round-trip property fails on
the very first added key. -/
theorem C2_roundtrip_code_bug :
    ((PackedArray.Add (PackedArray.mt Nat) 7 42).map fun s => PackedArray.Get s 7)
        = some CompResult.dummy ∧
      (CompResult.dummy : CompResult Nat) ≠ CompResult.record 42 := by
  decide

/-- C4 (code_bug evidence). Next() on an empty IndirectionTable mints slot
0 (denseSize 1, one live slot); Erase(0) marks the slot Undirected and
pushes it on the free list but never decrements m_denseSize, leaving
denseSize 1 while the count of non-Undirected slots is 0. The claim says
denseSize always equals that count. -/
theorem C4_densesize_code_bug :
    ((IndirectionTable.mt.Next.1.Erase 0).map fun t => (t.denseSize, t.liveCount))
        = some (1, 0) ∧ (1 : Nat) ≠ 0 := by
  decide

/-- C5 (counterexample). With bucket capacity 4 (shift 2), inserting keys
0..4 in order (five inserts) leaves bucket 0 holding all four offsets
0,1,2,3 and bucket 1 holding only offset 0 (key 4): no split happens, so
bucket 0 does not hold just 0,1 and bucket 1 does not hold 2,3 as the
claim predicts. -/
theorem C5_split_scenario_cx :
    (alookup (C5insert 5).sparse 0).map Bucket.keys = some [0, 1, 2, 3] ∧
      (alookup (C5insert 5).sparse 0).map Bucket.keys ≠ some [0, 1] ∧
      (alookup (C5insert 5).sparse 1).map Bucket.keys ≠ some [2, 3] := by
  decide

/-- C5 (amended). With bucket capacity 4, inserting keys 0..5 in order
never triggers Distribute: a key with a full owning bucket is always
already contained in it, since a page has exactly capacity-many offsets.
After the 5th insert bucket 0 holds offsets 0,1,2,3 (keys 0..3) and bucket
1 holds offset 0 (key 4); after the 6th, bucket 1 holds offsets 0,1; every
bucket stays within capacity. -/
theorem C5_split_scenario_amended :
    (alookup (C5insert 5).sparse 0).map Bucket.keys = some [0, 1, 2, 3] ∧
      (alookup (C5insert 5).sparse 1).map Bucket.keys = some [0] ∧
      (alookup (C5insert 6).sparse 0).map Bucket.keys = some [0, 1, 2, 3] ∧
      (alookup (C5insert 6).sparse 1).map Bucket.keys = some [0, 1] ∧
      ((C5insert 6).sparse.all fun bv => bv.2.keys.length ≤ 4) = true := by
  decide

/-- C6 (counterexample). Insert keys 0, 1024, 1025 and remove 1025. After
the Remove, bucket 0 has occupancy 1, far below half capacity (512), while
bucket 1 is still occupied, so bucket 0 is not the highest-indexed occupied
bucket: the claimed occupancy lower bound fails (Remove only ever looks at
the bucket of the removed key and its immediate successor page). -/
theorem C6_occupancy_cx :
    (C6trace.map fun s => ((alookup s.sparse 0).map fun b => b.keys.length,
        (alookup s.sparse 1).map fun b => b.keys.length))
      = some (some 1, some 1) ∧ (1 : Nat) < (1 <<< 10) >>> 1 := by
  decide

/-- C7 (counterexample). Removing key 0 from a fresh, empty SparseSet is
not a complete no-op: Remove calls GetOrCreateBucket, which materialises an
empty bucket for page 0, so the set of existing buckets changes from none
to one. -/
theorem C7_remove_absent_cx :
    SparseSet.Remove 10 SparseSet.mt 0 = some ⟨[], [(0, Bucket.mt)]⟩ ∧
      ([] : List (Nat × Bucket)) ≠ [(0, Bucket.mt)] := by
  decide

/-- C9 (code_bug evidence). Insert keys 1022, 1023, 1024, 1025 and remove
1022. The removal leaves bucket 0 under half capacity and merges bucket 1
into it by plain concatenation, producing the key array 1023, 0, 1 which
is not sorted by offset, although every bucket lookup (binary_search and
lower_bound) assumes sortedness. The claim says sortedness is preserved by
every operation including Merge. -/
theorem C9_sortedness_code_bug :
    (C9trace.map fun s => (alookup s.sparse 0).map Bucket.keys)
        = some (some [1023, 0, 1]) ∧
      sortedLe [1023, 0, 1] = false := by
  decide

end Symphony
